import Mathlib

/-!
Shallow embedding of `src/rust/src/main.rs` (rust-capstone-project):
wallet provisioning (`ensure_wallet`), the payment-driving call sequence,
transaction inspection (lines 115-146 of `main`), and the summary emission
(lines 149-188 of `main`).

Addresses, scripts, transaction ids and block hashes are opaque strings.
Amounts are satoshi counts: `Nat` for `bitcoin::Amount` (unsigned),
`Int` for `bitcoin::SignedAmount`.  Rendering of amounts to decimal BTC
(`Amount::to_btc`, `Display`) is floating-point library code and is kept
abstract as rendering-function parameters; everything else is translated
from the source.
-/

abbrev Addr := String
abbrev Script := String
abbrev TxidT := String
abbrev BlockHashT := String

/-- `bitcoin::OutPoint`: reference to a previous transaction output. -/
structure OutPoint where
  txid : TxidT
  vout : Nat
deriving DecidableEq, Repr

/-- `bitcoin::TxIn`, restricted to the field the program reads. -/
structure TxIn where
  previous_output : OutPoint
deriving DecidableEq, Repr

/-- `bitcoin::TxOut`: amount in satoshis plus the locking script. -/
structure TxOut where
  value : Nat
  script_pubkey : Script
deriving DecidableEq, Repr

/-- `bitcoin::Transaction`, restricted to the fields the program reads. -/
structure Transaction where
  input : List TxIn
  output : List TxOut
deriving DecidableEq, Repr

/-- The `info` part of `GetTransactionResult` (`tx_details.info.blockhash`). -/
structure WalletTxInfo where
  blockhash : Option BlockHashT
deriving DecidableEq, Repr

/-- `bitcoincore_rpc::json::GetTransactionResult`, restricted to the fields
the program reads: the optional wallet-relative fee (`SignedAmount`, in
satoshis), the confirmation info, and the decoded transaction
(`tx_details.transaction().unwrap()`). -/
structure GetTransactionResult where
  fee : Option Int
  info : WalletTxInfo
  tx : Transaction
deriving DecidableEq, Repr

/-- Node responses consumed by the inspection part of `main`:
`Address::from_script(_, Network::Regtest)` (None when the script maps to
no address), the `get_transaction(txid, Some(true))` response,
`get_raw_transaction`, and the height field of `get_block_info`. -/
structure InspectEnv where
  from_script : Script → Option Addr
  tx_details : GetTransactionResult
  raw_tx : TxidT → Option Transaction
  block_height : BlockHashT → Option Nat

/-- How the inspection part of `main` can abort: the
`.expect("Tx should be confirmed")` panic, a slice index out of bounds
(`tx.input[0]`, `input_tx.output[vout]`), a propagated RPC error (`?`),
and an `Address::from_script(..).unwrap()` panic. -/
inductive InspectError
  | notConfirmed
  | indexOutOfBounds
  | rpcFailure
  | badScript
deriving DecidableEq, Repr

/-- The record `main` assembles before writing `../out.txt`
(the `TransactionRecord` of the specification). -/
structure TransactionRecord where
  transactionId : TxidT
  inputAddress : Addr
  inputAmount : Nat
  trader_output : Option (Addr × Nat)
  change_output : Option (Addr × Nat)
  fee : Int
  blockHeight : Nat
  blockhash : BlockHashT
deriving DecidableEq, Repr

/-- The output-classification loop of `main` (lines 139-146): for each
output reconstruct its address; a match with `trader_address` overwrites
the `trader_output` slot, any other address overwrites the `change_output`
slot.  The accumulator is the pair of mutable `Option`s. -/
def classify_outputs (fs : Script → Option Addr) (trader_address : Addr) :
    Option (Addr × Nat) × Option (Addr × Nat) → List TxOut →
    Except InspectError (Option (Addr × Nat) × Option (Addr × Nat))
  | acc, [] => .ok acc
  | acc, out :: rest =>
    match fs out.script_pubkey with
    | none => .error .badScript
    | some out_address =>
      if out_address = trader_address then
        classify_outputs fs trader_address (some (out_address, out.value), acc.2) rest
      else
        classify_outputs fs trader_address (acc.1, some (out_address, out.value)) rest

/-- Lines 115-146 of `main`: fetch the wallet transaction, default the fee
to zero, require a confirming block hash, resolve the confirming block's
height, take input 0, resolve its previous output, reconstruct the funding
address, and classify the outputs. -/
def inspect (env : InspectEnv) (txid : TxidT) (trader_address : Addr) :
    Except InspectError TransactionRecord :=
  let tx_details := env.tx_details
  let tx := tx_details.tx
  let fee := tx_details.fee.getD 0
  match tx_details.info.blockhash with
  | none => .error .notConfirmed
  | some blockhash =>
    match env.block_height blockhash with
    | none => .error .rpcFailure
    | some block_height =>
      match tx.input[0]? with
      | none => .error .indexOutOfBounds
      | some input =>
        match env.raw_tx input.previous_output.txid with
        | none => .error .rpcFailure
        | some input_tx =>
          match input_tx.output[input.previous_output.vout]? with
          | none => .error .indexOutOfBounds
          | some input_tx_out =>
            match env.from_script input_tx_out.script_pubkey with
            | none => .error .badScript
            | some input_address =>
              match classify_outputs env.from_script trader_address (none, none) tx.output with
              | .error e => .error e
              | .ok (trader_output, change_output) =>
                .ok { transactionId := txid
                      inputAddress := input_address
                      inputAmount := input_tx_out.value
                      trader_output := trader_output
                      change_output := change_output
                      fee := fee
                      blockHeight := block_height
                      blockhash := blockhash }

/-- `writeln!(file, ...)`: append the text and a terminating newline. -/
def writeln (file : String) (s : String) : String := file ++ s ++ "\n"

/-- Lines 149-188 of `main`: `File::create` truncates to empty, then ten
`writeln!` calls in source order.  `render_amount` stands for the `Display`
of `bitcoin::Amount` (line 153), `render_btc` for `Amount::to_btc` plus
`Display` of the resulting `f64` (lines 162-169 and 178-185; note
`f64::default()` and `Amount::ZERO.to_btc()` are both `0.0`, so the
`unwrap_or_default` arm is `render_btc 0`), `render_fee` for
`SignedAmount::to_btc` plus `Display` (line 186). -/
def write_summary (render_amount : Nat → String) (render_btc : Nat → String)
    (render_fee : Int → String) (r : TransactionRecord) : String :=
  let file := ""
  let file := writeln file r.transactionId
  let file := writeln file r.inputAddress
  let file := writeln file (render_amount r.inputAmount)
  let file := writeln file (match r.trader_output with | some p => p.1 | none => "N/A")
  let file := writeln file (match r.trader_output with | some p => render_btc p.2 | none => render_btc 0)
  let file := writeln file (match r.change_output with | some p => p.1 | none => "N/A")
  let file := writeln file (match r.change_output with | some p => render_btc p.2 | none => render_btc 0)
  let file := writeln file (render_fee r.fee)
  let file := writeln file (toString r.blockHeight)
  let file := writeln file r.blockhash
  file

/-- Specification-side view of the emitted file: the ten lines in the
order of the `writeln!` calls. -/
def summary_lines (render_amount : Nat → String) (render_btc : Nat → String)
    (render_fee : Int → String) (r : TransactionRecord) : List String :=
  [ r.transactionId,
    r.inputAddress,
    render_amount r.inputAmount,
    (match r.trader_output with | some p => p.1 | none => "N/A"),
    (match r.trader_output with | some p => render_btc p.2 | none => render_btc 0),
    (match r.change_output with | some p => p.1 | none => "N/A"),
    (match r.change_output with | some p => render_btc p.2 | none => render_btc 0),
    render_fee r.fee,
    toString r.blockHeight,
    r.blockhash ]

/-- The tail of `main`: the summary file is produced only after inspection
has fully succeeded (every `?`/`unwrap` of lines 115-146 precedes
`File::create` on line 149). -/
def inspect_and_write (render_amount : Nat → String) (render_btc : Nat → String)
    (render_fee : Int → String) (env : InspectEnv) (txid : TxidT)
    (trader_address : Addr) : Except InspectError String :=
  match inspect env txid trader_address with
  | .error e => .error e
  | .ok r => .ok (write_summary render_amount render_btc render_fee r)

/-! ## Wallet provisioning (`ensure_wallet`, lines 38-62) -/

/-- `const RPC_URL` (line 12). -/
def RPC_URL : String := "http://127.0.0.1:18443"

/-- Errors a wallet RPC can answer with; `alreadyExists` is Bitcoin Core's
response to `createwallet` for a wallet that is already on disk. -/
inductive RpcError
  | alreadyExists
  | alreadyLoaded
  | other
deriving DecidableEq, Repr

/-- The wallet-scoped client `ensure_wallet` returns
(`Client::new(&wallet_url, ..)`, lines 56-61): a handle bound to the
wallet-scoped URL. -/
structure WalletHandle where
  url : String
deriving DecidableEq, Repr

/-- The four wallet RPCs `ensure_wallet` can issue, recorded as a trace. -/
inductive WalletReq
  | listWalletDir
  | createWallet (name : String)
  | listWallets
  | loadWallet (name : String)
deriving DecidableEq, Repr

/-- A node as seen through the four RPCs `ensure_wallet` uses: each call
maps the node state to a response plus the successor state. -/
structure Node (σ : Type) where
  list_wallet_dir : σ → List String × σ
  create_wallet : String → σ → Except RpcError Unit × σ
  list_wallets : σ → List String × σ
  load_wallet : String → σ → Except RpcError Unit × σ

/-- Second half of `ensure_wallet` (lines 48-61): check the loaded-wallet
set, load if absent (the `?` propagates a load failure), and return the
client bound to the wallet-scoped URL. -/
def ensure_wallet_load (node : Node σ) (s : σ) (wallet_name : String)
    (log : List WalletReq) : Except RpcError WalletHandle × σ × List WalletReq :=
  let (loaded_wallets, s1) := node.list_wallets s
  let log := log ++ [WalletReq.listWallets]
  let wallet_url := RPC_URL ++ "/wallet/" ++ wallet_name
  if loaded_wallets.any (fun w => w = wallet_name) then
    (.ok { url := wallet_url }, s1, log)
  else
    match node.load_wallet wallet_name s1 with
    | (.error e, s2) => (.error e, s2, log ++ [WalletReq.loadWallet wallet_name])
    | (.ok _, s2) => (.ok { url := wallet_url }, s2, log ++ [WalletReq.loadWallet wallet_name])

/-- `ensure_wallet` (lines 38-62), threading the node state and recording
every request issued: list the wallet directory, create the wallet when its
name is absent (the `?` propagates a create failure), then ensure it is
loaded and return the wallet-scoped client. -/
def ensure_wallet (node : Node σ) (s : σ) (wallet_name : String) :
    Except RpcError WalletHandle × σ × List WalletReq :=
  let (wallet_names, s1) := node.list_wallet_dir s
  let log := [WalletReq.listWalletDir]
  let wallet_exists := wallet_names.any (fun w => w = wallet_name)
  if wallet_exists then
    ensure_wallet_load node s1 wallet_name log
  else
    match node.create_wallet wallet_name s1 with
    | (.error e, s2) => (.error e, s2, log ++ [WalletReq.createWallet wallet_name])
    | (.ok _, s2) =>
      ensure_wallet_load node s2 wallet_name (log ++ [WalletReq.createWallet wallet_name])

/-- A regtest node's wallet bookkeeping: the on-disk wallet directory and
the set of loaded wallets. -/
structure NodeState where
  dir : List String
  loaded : List String
deriving DecidableEq, Repr

/-- Bitcoin Core's semantics of the four wallet RPCs on `NodeState`:
`createwallet` fails on an existing wallet and otherwise creates and loads
it; `loadwallet` fails on a loaded wallet and otherwise loads it. -/
def honest_node : Node NodeState where
  list_wallet_dir := fun s => (s.dir, s)
  create_wallet := fun n s =>
    if n ∈ s.dir then (.error .alreadyExists, s)
    else (.ok (), { dir := n :: s.dir, loaded := n :: s.loaded })
  list_wallets := fun s => (s.loaded, s)
  load_wallet := fun n s =>
    if n ∈ s.loaded then (.error .alreadyLoaded, s)
    else (.ok (), { s with loaded := n :: s.loaded })

/-- A node in which another process created the wallet between the
directory listing and the create call: the directory listing is empty yet
`createwallet` answers "already exists". -/
def racing_node : Node Unit where
  list_wallet_dir := fun s => ([], s)
  create_wallet := fun _ s => (.error .alreadyExists, s)
  list_wallets := fun s => ([], s)
  load_wallet := fun _ s => (.ok (), s)

/-! ## The payment-driving call sequence (lines 82-112) -/

/-- The node calls the payment phase of `main` issues. -/
inductive NodeCall
  | getNewAddress (wallet : String)
  | generateToAddress (wallet : String) (count : Nat) (addr : Addr)
  | sendToAddress (wallet : String) (addr : Addr) (amount : Nat)
deriving DecidableEq, Repr

/-- Lines 82-112 of `main` as the trace of node calls, given the node's
address responses: `miner_addr` answers the Miner `get_new_address`
(line 82; `require_network(Regtest)` leaves it unchanged when it is a
regtest address), `t1` and `t2` answer the two Trader `get_new_address`
calls (lines 90 and 93; `t1` is shadowed and unused).  The payment amount
is `Amount::from_btc(20.0)` = 2000000000 satoshis. -/
def payment_calls (miner_addr _t1 t2 : Addr) : List NodeCall :=
  [ .getNewAddress "Miner",
    .generateToAddress "Miner" 101 miner_addr,
    .getNewAddress "Trader",
    .getNewAddress "Trader",
    .sendToAddress "Miner" t2 2000000000,
    .generateToAddress "Miner" 1 miner_addr ]

/-- Is this call a block-generation call? -/
def NodeCall.isGenerate : NodeCall → Bool
  | .generateToAddress _ _ _ => true
  | _ => false

/-- Is this call the payment call? -/
def NodeCall.isSend : NodeCall → Bool
  | .sendToAddress _ _ _ => true
  | _ => false

/-- The calls issued before the payment. -/
def before_send (l : List NodeCall) : List NodeCall :=
  l.takeWhile (fun c => !c.isSend)

/-- The calls issued after the payment. -/
def after_send (l : List NodeCall) : List NodeCall :=
  (l.dropWhile (fun c => !c.isSend)).drop 1

/-! ## Specification-side characterisation of the classification loop -/

/-- The outputs whose reconstructed address equals the recipient address,
paired with their addresses, in output order. -/
def matching_outputs (fs : Script → Option Addr) (trader_address : Addr)
    (outs : List TxOut) : List (Addr × Nat) :=
  outs.filterMap (fun o =>
    match fs o.script_pubkey with
    | some a => if a = trader_address then some (a, o.value) else none
    | none => none)

/-- The outputs whose reconstructed address differs from the recipient
address, paired with their addresses, in output order. -/
def non_matching_outputs (fs : Script → Option Addr) (trader_address : Addr)
    (outs : List TxOut) : List (Addr × Nat) :=
  outs.filterMap (fun o =>
    match fs o.script_pubkey with
    | some a => if a = trader_address then none else some (a, o.value)
    | none => none)

/-- The last element of `l` when there is one, else the default `d`:
the value a slot initialised to `d` holds after a loop overwrote it once
per element of `l`. -/
def last_or : List α → Option α → Option α
  | [], d => d
  | x :: l, _ => last_or l (some x)

/-! ## Concrete scenario data -/

/-- The funding transaction: one 50 BTC coinbase output. -/
def prev_tx : Transaction where
  input := []
  output := [⟨5000000000, "mscript"⟩]

/-- A concrete confirmed payment as the node reports it: a known
wallet-relative fee of -141 satoshis, one input spending `prev_tx`, a
recipient output and a change output.  Script-to-address reconstruction is
the identity on these opaque script strings. -/
def fee_env : InspectEnv where
  from_script := fun s => some s
  tx_details :=
    { fee := some (-141)
      info := { blockhash := some "bh0" }
      tx := { input := [⟨⟨"prev", 0⟩⟩]
              output := [⟨2000000000, "taddr"⟩, ⟨2999999859, "caddr"⟩] } }
  raw_tx := fun t => if t = "prev" then some prev_tx else none
  block_height := fun _ => some 102

/-- The record `inspect` produces on `fee_env`. -/
def fee_record : TransactionRecord where
  transactionId := "tx0"
  inputAddress := "mscript"
  inputAmount := 5000000000
  trader_output := some ("taddr", 2000000000)
  change_output := some ("caddr", 2999999859)
  fee := -141
  blockHeight := 102
  blockhash := "bh0"

/-- The same scenario with the wallet-relative fee field absent. -/
def nofee_env : InspectEnv :=
  { fee_env with tx_details := { fee_env.tx_details with fee := none } }

/-- The record `inspect` produces on `nofee_env`: the fee defaults to 0. -/
def nofee_record : TransactionRecord := { fee_record with fee := 0 }

/-- The same scenario before confirmation: no block hash. -/
def unconfirmed_env : InspectEnv :=
  { fee_env with
    tx_details := { fee_env.tx_details with info := { blockhash := none } } }

/-! ## Generic lemmas about the embedded operations -/

theorem last_or_eq_getLast? : ∀ (l : List α) (d : Option α), l ≠ [] →
    last_or l d = l.getLast?
  | [x], _, _ => rfl
  | x :: y :: l, d, _ => by
    rw [show last_or (x :: y :: l) d = last_or (y :: l) (some x) from rfl,
      last_or_eq_getLast? (y :: l) (some x) (by simp), List.getLast?_cons_cons]

/-- When every script in `outs` reconstructs to an address, the
classification loop succeeds and each slot holds the last output of its
class, falling back to the slot's initial content. -/
theorem classify_outputs_eq (fs : Script → Option Addr) (ta : Addr) :
    ∀ (outs : List TxOut) (acc : Option (Addr × Nat) × Option (Addr × Nat)),
    (∀ o ∈ outs, (fs o.script_pubkey).isSome) →
    classify_outputs fs ta acc outs =
      .ok (last_or (matching_outputs fs ta outs) acc.1,
           last_or (non_matching_outputs fs ta outs) acc.2)
  | [], acc, _ => rfl
  | out :: rest, acc, h => by
    have hout : (fs out.script_pubkey).isSome := h out (by simp)
    obtain ⟨a, ha⟩ := Option.isSome_iff_exists.mp hout
    have hrest : ∀ o ∈ rest, (fs o.script_pubkey).isSome :=
      fun o ho => h o (List.mem_cons_of_mem _ ho)
    by_cases hm : a = ta
    · rw [show classify_outputs fs ta acc (out :: rest) =
          classify_outputs fs ta (some (a, out.value), acc.2) rest by
            simp [classify_outputs, ha, hm],
        classify_outputs_eq fs ta rest _ hrest]
      simp [matching_outputs, non_matching_outputs, last_or, ha, hm,
        List.filterMap_cons]
    · rw [show classify_outputs fs ta acc (out :: rest) =
          classify_outputs fs ta (acc.1, some (a, out.value)) rest by
            simp [classify_outputs, ha, hm],
        classify_outputs_eq fs ta rest _ hrest]
      simp [matching_outputs, non_matching_outputs, last_or, ha, hm,
        List.filterMap_cons]

/-- The classification loop can only fail on an unreconstructable script,
never with an index error. -/
theorem classify_outputs_ne_oob (fs : Script → Option Addr) (ta : Addr) :
    ∀ (outs : List TxOut) (acc : Option (Addr × Nat) × Option (Addr × Nat)),
    classify_outputs fs ta acc outs ≠ .error .indexOutOfBounds
  | [], acc => by simp [classify_outputs]
  | out :: rest, acc => by
    unfold classify_outputs
    match hfs : fs out.script_pubkey with
    | none => simp
    | some a =>
      by_cases hm : a = ta <;>
        simp [hm, classify_outputs_ne_oob fs ta rest]

/-- Helper: whenever inspection succeeds, the record's fee is exactly the
wallet-relative fee field when present and zero when absent
(`tx_details.fee.unwrap_or(SignedAmount::from_btc(0.0))`, lines 117-119). -/
theorem inspect_ok_fee (env : InspectEnv) (txid : TxidT) (ta : Addr)
    (r : TransactionRecord) (h : inspect env txid ta = .ok r) :
    r.fee = env.tx_details.fee.getD 0 := by
  simp only [inspect] at h
  repeat' split at h
  all_goals first
    | exact (Except.noConfusion h)
    | (injection h with h; subst h; rfl)

/-! ## Claim theorems -/

/-- C1, counterexample: on a concrete record the summary does not have
nine lines (it has ten). -/
theorem summary_lines_not_nine :
    ¬ ((summary_lines (fun n => toString n) (fun n => toString n)
        (fun i => toString i) fee_record).length = 9) := by decide

/-- C1 (amended): the summary emitted for an inspected transaction
consists of exactly TEN newline-terminated lines, in the fixed order:
transactionId; inputAddress; inputAmount; recipientOutput address or the
literal "N/A"; recipientOutput amount or zero; changeOutput address or
"N/A"; changeOutput amount or zero; fee; confirmingBlockHeight;
confirmingBlockHash. -/
theorem summary_emits_ten_lines (ra rb rf : _) (r : TransactionRecord) :
    write_summary ra rb rf r =
      String.join ((summary_lines ra rb rf r).map (fun l => l ++ "\n")) ∧
    (summary_lines ra rb rf r).length = 10 ∧
    (summary_lines ra rb rf r)[0]? = some r.transactionId ∧
    (summary_lines ra rb rf r)[1]? = some r.inputAddress ∧
    (summary_lines ra rb rf r)[2]? = some (ra r.inputAmount) ∧
    (summary_lines ra rb rf r)[3]? = some ((r.trader_output.map Prod.fst).getD "N/A") ∧
    (summary_lines ra rb rf r)[4]? = some (rb ((r.trader_output.map Prod.snd).getD 0)) ∧
    (summary_lines ra rb rf r)[5]? = some ((r.change_output.map Prod.fst).getD "N/A") ∧
    (summary_lines ra rb rf r)[6]? = some (rb ((r.change_output.map Prod.snd).getD 0)) ∧
    (summary_lines ra rb rf r)[7]? = some (rf r.fee) ∧
    (summary_lines ra rb rf r)[8]? = some (toString r.blockHeight) ∧
    (summary_lines ra rb rf r)[9]? = some r.blockhash := by
  obtain ⟨tid, ia, iam, tro, cho, fe, bh, bhash⟩ := r
  cases tro <;> cases cho <;>
    simp [summary_lines, write_summary, writeln, String.join_eq, String.ext_iff,
      String.data_append]

/-- C2, counterexample: on a concrete confirmed transaction whose
wallet-relative fee field is -141 satoshis, inspection succeeds and the
fee carried into the summary is negative (the written eighth line is
"-141" under a sign-preserving renderer), not a non-negative magnitude. -/
theorem fee_negative_on_fee_env :
    inspect fee_env "tx0" "taddr" = .ok fee_record ∧ fee_record.fee < 0 ∧
    (summary_lines (fun n => toString n) (fun n => toString n)
        (fun i => toString i) fee_record)[7]? = some "-141" :=
  ⟨rfl, by decide, rfl⟩

/-- C2 (amended): the fee written to the summary is the wallet-relative
fee field itself when present — a signed value, taken without any
absolute-value or magnitude conversion — and zero when the field is
absent; the eighth summary line renders exactly this signed value. -/
theorem fee_written_as_field_or_zero (env : InspectEnv) (txid : TxidT)
    (ta : Addr) (r : TransactionRecord) (ra rb rf : _)
    (h : inspect env txid ta = .ok r) :
    r.fee = env.tx_details.fee.getD 0 ∧
    (summary_lines ra rb rf r)[7]? = some (rf r.fee) :=
  ⟨inspect_ok_fee env txid ta r h, rfl⟩

/-- C2, witness: on the scenario with the fee field absent, the recorded
fee is zero and the eighth line renders it. -/
theorem fee_written_witness :
    nofee_record.fee = nofee_env.tx_details.fee.getD 0 ∧
    (summary_lines (fun n => toString n) (fun n => toString n)
        (fun i => toString i) nofee_record)[7]? =
      some ((fun i : Int => toString i) nofee_record.fee) :=
  fee_written_as_field_or_zero nofee_env "tx0" "taddr" nofee_record
    (fun n => toString n) (fun n => toString n) (fun i => toString i) rfl

/-- C3, counterexample: against a node whose wallet directory listing is
empty but whose create call answers "already exists" (another process
created the wallet in between), `ensure_wallet` aborts with that error
instead of treating it as success and returning a handle. -/
theorem create_already_exists_is_failure :
    (ensure_wallet racing_node () "Miner").1 = .error .alreadyExists := rfl

/-- C3 (amended): when `ensure_wallet` issues a create-wallet request and
the node answers with an error — including "already exists" — the error is
propagated and provisioning aborts; an existing wallet is tolerated only
when it already appears in the directory listing, in which case no create
request is issued. -/
theorem create_error_propagates {σ : Type} (node : Node σ) (s : σ)
    (name : String) (e : RpcError)
    (h1 : (node.list_wallet_dir s).1.any (fun w => w = name) = false)
    (h2 : (node.create_wallet name (node.list_wallet_dir s).2).1 = .error e) :
    (ensure_wallet node s name).1 = .error e := by
  unfold ensure_wallet
  rcases hd : node.list_wallet_dir s with ⟨names, s1⟩
  rw [hd] at h1 h2
  simp only at h1 h2
  simp only [h1, Bool.false_eq_true, if_false]
  rcases hc : node.create_wallet name s1 with ⟨rc, s2⟩
  rw [hc] at h2
  simp only at h2
  cases rc with
  | error e2 =>
    injection h2 with h2
    subst h2
    simp [hc]
  | ok u => exact (Except.noConfusion h2)

/-- C3, witness: the propagation theorem applied to the racing node with
wallet name "Trader". -/
theorem create_error_witness :
    (ensure_wallet racing_node () "Trader").1 = .error .alreadyExists :=
  create_error_propagates racing_node () "Trader" .alreadyExists rfl rfl

/-- C4: against a node with Bitcoin Core's wallet semantics, calling
`ensure_wallet` twice in sequence with the same name and no intervening
node-side deletion succeeds both times with an equivalent handle (the same
wallet-scoped URL), and the second call issues no create-wallet request. -/
theorem ensure_wallet_idempotent (s : NodeState) (name : String) :
    (ensure_wallet honest_node s name).1 =
        .ok { url := RPC_URL ++ "/wallet/" ++ name } ∧
    (ensure_wallet honest_node (ensure_wallet honest_node s name).2.1 name).1 =
        (ensure_wallet honest_node s name).1 ∧
    ∀ n, WalletReq.createWallet n ∉
        (ensure_wallet honest_node (ensure_wallet honest_node s name).2.1 name).2.2 := by
  by_cases h1 : name ∈ s.dir <;> by_cases h2 : name ∈ s.loaded <;>
    simp [ensure_wallet, ensure_wallet_load, honest_node, h1, h2]

/-- C5: when the wallet-relative details of the inspected transaction
carry no confirming block hash, inspection fails with the "not confirmed"
condition, and no summary (not even a partial one) is produced, since the
file is written only after inspection succeeds. -/
theorem unconfirmed_inspection_fails (ra rb rf : _) (env : InspectEnv)
    (txid : TxidT) (ta : Addr)
    (h : env.tx_details.info.blockhash = none) :
    inspect env txid ta = .error .notConfirmed ∧
    inspect_and_write ra rb rf env txid ta = .error .notConfirmed := by
  have h1 : inspect env txid ta = .error .notConfirmed := by
    simp only [inspect, h]
  exact ⟨h1, by simp only [inspect_and_write, h1]⟩

/-- C5, witness: the zero-confirmation scenario `unconfirmed_env`. -/
theorem unconfirmed_witness :
    inspect unconfirmed_env "tx0" "taddr" = .error .notConfirmed ∧
    inspect_and_write (fun n => toString n) (fun n => toString n)
        (fun i => toString i) unconfirmed_env "tx0" "taddr" =
      .error .notConfirmed :=
  unconfirmed_inspection_fails (fun n => toString n) (fun n => toString n)
    (fun i => toString i) unconfirmed_env "tx0" "taddr" rfl

/-- C6: when every output script reconstructs to an address and more than
one output's address differs from the recipient address, the
classification loop succeeds and its change slot holds exactly the last
non-recipient output in output-list order (later non-matches overwrite
earlier ones). -/
theorem change_output_is_last_non_recipient (fs : Script → Option Addr)
    (ta : Addr) (outs : List TxOut)
    (hres : ∀ o ∈ outs, (fs o.script_pubkey).isSome)
    (hlen : 1 < (non_matching_outputs fs ta outs).length) :
    ∃ p, classify_outputs fs ta (none, none) outs = .ok p ∧
      p.2 = (non_matching_outputs fs ta outs).getLast? := by
  refine ⟨_, classify_outputs_eq fs ta outs (none, none) hres, ?_⟩
  have hne : non_matching_outputs fs ta outs ≠ [] := by
    intro hnil
    rw [hnil] at hlen
    simp at hlen
  simp [last_or_eq_getLast? _ _ hne]

/-- C6, witness: two non-recipient outputs; the change slot holds the
second. -/
theorem change_output_witness :
    ∃ p, classify_outputs (fun s => some s) "t" (none, none)
        [⟨1, "a"⟩, ⟨2, "b"⟩] = .ok p ∧
      p.2 = (non_matching_outputs (fun s => some s) "t"
        [⟨1, "a"⟩, ⟨2, "b"⟩]).getLast? :=
  change_output_is_last_non_recipient (fun s => some s) "t"
    [⟨1, "a"⟩, ⟨2, "b"⟩] (by decide) (by decide)

/-- C7: for a transaction with exactly two outputs whose scripts both
reconstruct, one to the recipient address and one to a different address,
classification succeeds with both slots set: the recipient slot holds the
matching output, the change slot holds the other, and the two are disjoint
(the recipient slot's address is the recipient's, the change slot's is
not). -/
theorem two_outputs_both_classified (fs : Script → Option Addr) (ta : Addr)
    (o1 o2 : TxOut) (a1 a2 : Addr)
    (h1 : fs o1.script_pubkey = some a1) (h2 : fs o2.script_pubkey = some a2)
    (hc : (a1 = ta ∧ a2 ≠ ta) ∨ (a1 ≠ ta ∧ a2 = ta)) :
    ∃ rp cp, classify_outputs fs ta (none, none) [o1, o2] = .ok (some rp, some cp) ∧
      rp.1 = ta ∧ cp.1 ≠ ta ∧
      ((rp = (a1, o1.value) ∧ cp = (a2, o2.value)) ∨
       (rp = (a2, o2.value) ∧ cp = (a1, o1.value))) := by
  rcases hc with ⟨e1, e2⟩ | ⟨e1, e2⟩
  · subst e1
    exact ⟨(a1, o1.value), (a2, o2.value), by simp [classify_outputs, h1, h2, e2],
      rfl, e2, Or.inl ⟨rfl, rfl⟩⟩
  · subst e2
    exact ⟨(a2, o2.value), (a1, o1.value), by simp [classify_outputs, h1, h2, e1],
      rfl, e1, Or.inr ⟨rfl, rfl⟩⟩

/-- C7, witness: a recipient output of 3 and a change output of 4. -/
theorem two_outputs_witness :
    ∃ rp cp, classify_outputs (fun s => some s) "t" (none, none)
        [⟨3, "t"⟩, ⟨4, "c"⟩] = .ok (some rp, some cp) ∧
      rp.1 = "t" ∧ cp.1 ≠ "t" ∧
      ((rp = ("t", (⟨3, "t"⟩ : TxOut).value) ∧ cp = ("c", (⟨4, "c"⟩ : TxOut).value)) ∨
       (rp = ("c", (⟨4, "c"⟩ : TxOut).value) ∧ cp = ("t", (⟨3, "t"⟩ : TxOut).value))) :=
  two_outputs_both_classified (fun s => some s) "t" ⟨3, "t"⟩ ⟨4, "c"⟩ "t" "c"
    rfl rfl (Or.inl ⟨rfl, by decide⟩)

/-- C8: the payment phase issues exactly one block-generation call before
the payment, generating 101 blocks to the funder's fresh address, and
exactly one block-generation call after the payment, generating 1 block to
that same address. -/
theorem generation_around_payment (a t1 t2 : Addr) :
    (before_send (payment_calls a t1 t2)).filter NodeCall.isGenerate =
      [.generateToAddress "Miner" 101 a] ∧
    (after_send (payment_calls a t1 t2)).filter NodeCall.isGenerate =
      [.generateToAddress "Miner" 1 a] :=
  ⟨rfl, rfl⟩

/-- C9: when every output script reconstructs to an address and more than
one output's address equals the recipient address, the classification loop
succeeds and its recipient slot holds exactly the last matching output in
output-list order — the overwrite-on-later-output behaviour applies to the
recipient side exactly as to the change side. -/
theorem recipient_output_is_last_matching (fs : Script → Option Addr)
    (ta : Addr) (outs : List TxOut)
    (hres : ∀ o ∈ outs, (fs o.script_pubkey).isSome)
    (hlen : 1 < (matching_outputs fs ta outs).length) :
    ∃ p, classify_outputs fs ta (none, none) outs = .ok p ∧
      p.1 = (matching_outputs fs ta outs).getLast? := by
  refine ⟨_, classify_outputs_eq fs ta outs (none, none) hres, ?_⟩
  have hne : matching_outputs fs ta outs ≠ [] := by
    intro hnil
    rw [hnil] at hlen
    simp at hlen
  simp [last_or_eq_getLast? _ _ hne]

/-- C9, witness: two recipient outputs; the recipient slot holds the
second. -/
theorem recipient_output_witness :
    ∃ p, classify_outputs (fun s => some s) "t" (none, none)
        [⟨1, "t"⟩, ⟨2, "t"⟩] = .ok p ∧
      p.1 = (matching_outputs (fun s => some s) "t"
        [⟨1, "t"⟩, ⟨2, "t"⟩]).getLast? :=
  recipient_output_is_last_matching (fun s => some s) "t"
    [⟨1, "t"⟩, ⟨2, "t"⟩] (by decide) (by decide)

/-- C10: under the preconditions that the inspected transaction has at
least one input and that the referenced previous-output position is within
the referenced prior transaction's output list, inspection never fails
with an index-out-of-bounds error: the two index operations of the source
(`tx.input[0]` and `input_tx.output[vout]`) are in bounds, so the
out-of-bounds branches of the Option-returning embedding are unreachable. -/
theorem index_ops_in_bounds (env : InspectEnv) (txid : TxidT) (ta : Addr)
    (h1 : env.tx_details.tx.input ≠ [])
    (h2 : ∀ i ptx, env.tx_details.tx.input[0]? = some i →
        env.raw_tx i.previous_output.txid = some ptx →
        i.previous_output.vout < ptx.output.length) :
    inspect env txid ta ≠ .error .indexOutOfBounds := by
  intro hc
  rcases hbh : env.tx_details.info.blockhash with _ | bh
  · simp [inspect, hbh] at hc
  · rcases hbl : env.block_height bh with _ | ht
    · simp [inspect, hbh, hbl] at hc
    · rcases hi : env.tx_details.tx.input[0]? with _ | i
      · have hpos : 0 < env.tx_details.tx.input.length := List.length_pos.mpr h1
        rw [List.getElem?_eq_getElem hpos] at hi
        exact Option.noConfusion hi
      · rcases hrt : env.raw_tx i.previous_output.txid with _ | ptx
        · simp [inspect, hbh, hbl, hi, hrt] at hc
        · have hv := h2 i ptx hi hrt
          rcases ho : ptx.output[i.previous_output.vout]? with _ | o
          · rw [List.getElem?_eq_getElem hv] at ho
            exact Option.noConfusion ho
          · rcases hfs : env.from_script o.script_pubkey with _ | a
            · simp [inspect, hbh, hbl, hi, hrt, ho, hfs] at hc
            · rcases hcl : classify_outputs env.from_script ta (none, none)
                  env.tx_details.tx.output with e | p
              · have hne := classify_outputs_ne_oob env.from_script ta
                  env.tx_details.tx.output (none, none)
                rw [hcl] at hne
                simp [inspect, hbh, hbl, hi, hrt, ho, hfs, hcl] at hc
                exact hne (by rw [hc])
              · simp [inspect, hbh, hbl, hi, hrt, ho, hfs, hcl] at hc

/-- C10, witness: on the concrete confirmed scenario the preconditions
hold and inspection indeed does not fail with an index error. -/
theorem index_ops_witness :
    inspect fee_env "tx0" "taddr" ≠ .error .indexOutOfBounds :=
  index_ops_in_bounds fee_env "tx0" "taddr" (by decide) (by
    intro i ptx hi hp
    have hi2 := Option.some.inj (show some (⟨⟨"prev", 0⟩⟩ : TxIn) = some i from hi)
    subst hi2
    have hp2 := Option.some.inj (show some prev_tx = some ptx from hp)
    subst hp2
    decide)
